import Mathlib

/-!
A verification development for the repo_debian_generator project
(files `repo_debian_generator.py` and `repo_debian_generator_cmd.py`).

The Python source is shallowly embedded below: each Lean definition is a
direct translation of the corresponding Python function (the Python line
numbers are given in the doc comments).  External collaborators (the
rosdep resolution service, the interactive prompt) are passed in as
explicit function arguments, so every definition is executable.
-/

namespace RepoDebianGenerator

/-! ## String helpers (source: repo_debian_generator.py) -/

/-- The character replacement performed by `name.replace('_', '-')`. -/
def sanChar (c : Char) : Char := if c == '_' then '-' else c

/-- Embeds `sanitize_package_name` (line 636-637): `name.replace('_', '-')`.
Since both the pattern and the replacement are single characters, Python's
`str.replace` is a character-wise map over the string. -/
def sanitize_package_name (name : String) : String :=
  String.mk (name.data.map sanChar)

/-- The whitespace class used by Python's `re` module (`\s`) and `str.strip`
for ASCII text: space, tab, newline, carriage return, vertical tab, form feed. -/
def isPySpace (c : Char) : Bool :=
  c == ' ' || c == '\t' || c == '\n' || c == '\r' || c == '\x0b' || c == '\x0c'

/-- Helper for the markup regex `<.*?>` (line 629): starting just after a `<`,
scan for the closing `>`; `.` does not match a newline, so the match attempt
fails if a newline (or the end of input) is reached first.  On success,
returns the remainder of the input after the `>`. -/
def findTagClose : List Char → Option (List Char)
  | [] => none
  | '>' :: cs => some cs
  | '\n' :: _ => none
  | _ :: cs => findTagClose cs

/-- Worker for `stripMarkup`.  The fuel argument makes the recursion
structural (every step of the regex scan consumes at least one character, so
`fuel = cs.length` always suffices and the `0` case is unreachable). -/
def stripMarkupFuel : Nat → List Char → List Char
  | 0, cs => cs
  | _ + 1, [] => []
  | fuel + 1, '<' :: cs =>
    match findTagClose cs with
    | some rest => stripMarkupFuel fuel rest
    | none => '<' :: stripMarkupFuel fuel cs
  | fuel + 1, c :: cs => c :: stripMarkupFuel fuel cs

/-- Embeds `markup_remover.sub('', value)` with `markup_remover = re.compile(r'<.*?>')`
(lines 629-630): non-overlapping, leftmost, non-greedy removal of `<...>` spans.
At a `<`, the lazy pattern matches up to the first following `>` with no
intervening newline; if there is none, the `<` is kept and the scan resumes at
the next character. -/
def stripMarkup (cs : List Char) : List Char :=
  stripMarkupFuel cs.length cs

mutual

/-- Embeds `re.sub('\s+', ' ', value)` (line 631): every maximal run of
whitespace characters is replaced by a single space. -/
def collapseWhitespace : List Char → List Char
  | [] => []
  | c :: cs =>
    if isPySpace c then ' ' :: skipFollowingSpaces cs
    else c :: collapseWhitespace cs

/-- After emitting the single space for a whitespace run, drop the rest of
the run and resume `collapseWhitespace`. -/
def skipFollowingSpaces : List Char → List Char
  | [] => []
  | c :: cs =>
    if isPySpace c then skipFollowingSpaces cs
    else c :: collapseWhitespace cs

end

/-- Embeds Python's `str.strip()` (line 632): remove leading and trailing
whitespace. -/
def pyStrip (cs : List Char) : List Char :=
  ((cs.dropWhile isPySpace).reverse.dropWhile isPySpace).reverse

/-- Embeds `debianize_string` (lines 628-633): strip markup tags, collapse
whitespace runs to single spaces, and strip leading/trailing whitespace. -/
def debianize_string (value : String) : String :=
  String.mk (pyStrip (collapseWhitespace (stripMarkup value.data)))

/-- Embeds `value.split('. ', 1)` (line 192): split at the first occurrence
of the two-character separator `". "`, if any. -/
def splitDotSpace : List Char → Option (List Char × List Char)
  | [] => none
  | [_] => none
  | c :: c2 :: cs =>
    if c == '.' && c2 == ' ' then some ([], cs)
    else
      match splitDotSpace (c2 :: cs) with
      | some (p, q) => some (c :: p, q)
      | none => none

/-- Whether the character list contains the substring `". "`, i.e. whether
`value.split('. ', 1)` finds a separator. -/
def hasDotSpace : List Char → Bool
  | [] => false
  | [_] => false
  | c :: c2 :: cs => (c == '.' && c2 == ' ') || hasDotSpace (c2 :: cs)

/-- Embeds `format_description` (lines 177-197): debianize the value, split
once on `". "`; when there is no split (or the remainder is empty) return the
debianized value unchanged, otherwise produce
`"{synopsis}.\n {rest.strip()}"`. -/
def format_description (value : String) : String :=
  let v := debianize_string value
  match splitDotSpace v.data with
  | none => v
  | some (p, q) =>
    if q.isEmpty then v
    else String.mk p ++ ".\n " ++ String.mk (pyStrip q)

/-! ## Dependency resolution (source: repo_debian_generator.py, lines 233-262)

The external rosdep service `resolve_rosdep_key` (imported from
`bloom.generators.common`) is modelled as an oracle argument of type
`String → String → String → String → List String → Option (List String)`
taking the key, the OS name, the OS version, the ROS distro and the peer
package list, and returning the resolved key list, or `none` when the key
could not be resolved (the Python function returns `None` as the first
component of its triple in that case). -/

/-- A dependency object as consumed by `resolve_dependencies`; only the
`name` attribute is read there (`keys = [k.name for k in keys]`, line 249). -/
structure Dependency where
  name : String
deriving DecidableEq

/-- Embeds `missing_dep_resolver` (lines 233-236); `default_fallback_resolver`
(imported from bloom) is passed as the oracle `default_fallback`.  This
function is defined in the source but never called by it. -/
def missing_dep_resolver (default_fallback : String → List String → List String)
    (key : String) (peer_packages : List String) : List String :=
  if key ∈ peer_packages then [sanitize_package_name key]
  else default_fallback key peer_packages

set_option linter.unusedVariables false in
/-- Embeds `resolve_dependencies` (lines 238-262).  Note the source
overwrites the caller's `peer_packages` with the key list itself
(line 250, `peer_packages = keys`) and never uses `fallback_resolver`;
when the service yields no resolution the literal key is used
(lines 257-258). The result dictionary is modelled as an association list
in key order. -/
def resolve_dependencies
    (resolve_rosdep_key : String → String → String → String → List String → Option (List String))
    (keys : List Dependency) (os_name os_version : String)
    (ros_distro : Option String) (peer_packages : Option (List String))
    (fallback_resolver : Option (String → List String → List String)) :
    List (String × List String) :=
  let ros_distro2 := ros_distro.getD "melodic"
  let keyNames := keys.map Dependency.name
  let peer := keyNames
  keyNames.map (fun key =>
    (key,
      match resolve_rosdep_key key os_name os_version ros_distro2 peer with
      | some resolved_key => resolved_key
      | none => [key]))

/-! ## Changelog assembly and validation
(source: repo_debian_generator.py, lines 393-432 in
`generate_substitutions_from_package`, together with `get_changelogs`,
lines 200-230)

`get_changelogs` parses CHANGELOG.rst into a list of
`(version, date, changes, releaser, email)` tuples (newest first), or `[]`
when the file is absent.  The embedding takes that parsed list as input;
the wall-clock timestamp produced by `get_rfc_2822_date(datetime.now())`
and the primary maintainer `package.maintainers[0]` are passed explicitly. -/

/-- One entry of the changelog sequence: `(version, date, changes, releaser,
email)` (line 221). -/
structure ChangelogEntry where
  version : String
  date : String
  changes : String
  releaser : String
  email : String
deriving DecidableEq

/-- The fixed marker text of a synthesized changelog entry (line 406). -/
def autogenChangelogText : String :=
  "  * Autogenerated, no changelog for this version found in CHANGELOG.rst."

/-- Embeds lines 399-409: if the current package version does not occur in
the changelog list (in particular when the list is empty), insert a
synthesized entry at the head with the current version, the current date,
the fixed autogenerated marker text, and the primary maintainer as
releaser. -/
def assemble_changelogs (version now relName relEmail : String)
    (changelogs : List ChangelogEntry) : List ChangelogEntry :=
  if version ∈ changelogs.map ChangelogEntry.version then changelogs
  else { version := version, date := now, changes := autogenChangelogText,
         releaser := relName, email := relEmail } :: changelogs

/-- Modelled from the spec: `pkg_resources.parse_version` (imported by the
source, line 52) restricted to the dotted numeric versions the spec's
semantic-version comparison concerns; a version string is parsed into its
dot-separated numeric components. -/
def splitDots : List Char → List (List Char)
  | [] => [[]]
  | '.' :: cs => [] :: splitDots cs
  | c :: cs =>
    match splitDots cs with
    | [] => [[c]]
    | g :: gs => (c :: g) :: gs

/-- Digits of one version component read as a number. -/
def digitsToNat (cs : List Char) : Nat :=
  cs.foldl (fun a c => a * 10 + (c.toNat - 48)) 0

/-- Modelled from the spec: parse a dotted numeric version string into its
numeric components. -/
def parse_version (s : String) : List Nat :=
  (splitDots s.data).map digitsToNat

/-- Modelled from the spec: semantic-version strict ordering of parsed
versions — componentwise, with missing components reading as zero. -/
def verLt : List Nat → List Nat → Bool
  | [], [] => false
  | [], y :: ys => decide (0 < y) || verLt [] ys
  | _ :: _, [] => false
  | x :: xs, y :: ys => decide (x < y) || (decide (x = y) && verLt xs ys)

/-- Embeds lines 410-425: the changelog is flagged when the first entry's
version differs from the version being released, or when some entry's
version exceeds it under version comparison.  (The source indexes
`changelogs[0]`; at the point of the check the list is never empty because
the synthesized entry was inserted beforehand, so the `[]` branch here is
unreachable.) -/
def bad_changelog (version : String) (logs : List ChangelogEntry) : Bool :=
  let firstBad :=
    match logs with
    | [] => true
    | e :: _ => version != e.version
  let anyNewer := logs.any (fun e => verLt (parse_version version) (parse_version e.version))
  firstBad || anyNewer

/-- Embeds lines 426-431: when the changelog is flagged, the run continues
only if the interactive `maybe_continue('n', 'Continue anyways')` gate — an
external prompt whose default response is `'n'`, i.e. abort — is answered
affirmatively; otherwise `sys.exit("User quit.")` stops the run. -/
def changelog_check_passes (version : String) (logs : List ChangelogEntry)
    (continueAnyway : Bool) : Bool :=
  if bad_changelog version logs then continueAnyway else true

/-! ## Multi-package aggregation (source: repo_debian_generator.py, lines 458-506)

`merge_packages` first builds `all_subs`, a dict keyed by each package's
`'Name'` (line 463, insertion-ordered, a later package with the same name
overwriting the earlier value in place), then folds the per-package
substitution maps into one repository header.  The embedding takes the
already-generated per-package substitution maps as input and models the
header dict as a structure with the fields the source assigns. -/

/-- The fields of a per-package substitution map that `merge_packages`
reads (they are produced by `generate_substitutions_from_package`; in
particular `Maintainers` is the comma-joined maintainer string of
line 391 and `Copyright` the concatenated license text of line 450). -/
structure Sub where
  Name : String
  DebianInc : String
  format : String
  InstallationPrefix : String
  Maintainers : String
  BuildDepends : List String
  Homepage : String
  Copyright : String
  debhelper_version : Nat
  changelogs : List ChangelogEntry
  Distribution : String

/-- The repository header map built by `merge_packages` (lines 470-505). -/
structure Header where
  Package : String
  DebianInc : String
  format : String
  InstallationPrefix : String
  Maintainer : String
  Maintainers : String
  BuildDepends : List String
  Homepage : String
  Copyright : String
  debhelper_version : Nat
  changelogs : List ChangelogEntry
  Distribution : String

/-- One step of building the `all_subs` dict (line 463,
`all_subs[subs['Name']] = subs`): an existing key keeps its position and is
overwritten, a new key is appended. -/
def upsertByName (acc : List Sub) (s : Sub) : List Sub :=
  if acc.any (fun t => t.Name == s.Name) then
    acc.map (fun t => if t.Name == s.Name then s else t)
  else acc ++ [s]

/-- The `all_subs` dict of `merge_packages` (lines 459-468) as an
insertion-ordered list. -/
def allSubsList (subs : List Sub) : List Sub :=
  subs.foldl upsertByName []

/-- Worker for `pyDictFromKeys`: keep each key the first time it is seen. -/
def pyDictFromKeysAux (seen : List String) : List String → List String
  | [] => []
  | x :: xs =>
    if x ∈ seen then pyDictFromKeysAux seen xs
    else x :: pyDictFromKeysAux (x :: seen) xs

/-- Embeds `list(dict.fromkeys(...))` (line 502): remove duplicates while
keeping the first occurrence of each key, in order. -/
def pyDictFromKeys (l : List String) : List String :=
  pyDictFromKeysAux [] l

/-- The header built by the `merge_packages` loop and the post-processing of
lines 470-503, given the first package `s0` of `all_subs`, the remaining
packages `rest`, and the first character `c` of `s0`'s `Maintainers` string:
* lines 474-486 seed every header field from `s0`; line 479
  (`sub['Maintainers'][0]`) indexes the comma-joined maintainers string, so
  `Maintainer` is its first character;
* for the later packages, line 489 extends the build-dependency list; the
  `str.join` calls of lines 488 and 490 return a fresh string that the
  source discards, so they leave `Maintainers` and `Copyright` unchanged;
* line 500 removes entries equal to a key of `all_subs`, and line 502
  removes duplicates keeping first occurrences. -/
def merge_header_core (s0 : Sub) (rest : List Sub) (c : Char) : Header :=
  let bd := rest.foldl (fun acc s => acc ++ s.BuildDepends) s0.BuildDepends
  let names := (s0 :: rest).map Sub.Name
  let bd1 := bd.filter (fun x => decide (x ∉ names))
  { Package := sanitize_package_name "tesseract_core"
    DebianInc := s0.DebianInc
    format := s0.format
    InstallationPrefix := s0.InstallationPrefix
    Maintainer := String.mk [c]
    Maintainers := s0.Maintainers
    BuildDepends := pyDictFromKeys bd1
    Homepage := s0.Homepage
    Copyright := s0.Copyright
    debhelper_version := s0.debhelper_version
    changelogs := s0.changelogs
    Distribution := s0.Distribution }

/-- Embeds `merge_packages` (lines 458-506) restricted to the header map it
adds: `none` models the `error(..., exit=True)` abort taken when the loop
body raises — an empty input leaves `repo_header` unassigned (line 500 then
raises `KeyError`), and an empty `Maintainers` string makes line 479 raise
`IndexError`. -/
def merge_packages (subs : List Sub) : Option Header :=
  match allSubsList subs with
  | [] => none
  | s0 :: rest =>
    match s0.Maintainers.data with
    | [] => none
    | c :: _ => some (merge_header_core s0 rest c)

/-! ### Concrete per-package substitution maps used as test inputs -/

/-- Package `pkg_a`, maintained by Alice, build-depending on `libfoo-dev`. -/
def demoPkgA : Sub :=
  { Name := "pkg_a", DebianInc := "-0", format := "quilt",
    InstallationPrefix := "/opt",
    Maintainers := "Alice <alice@example.com>",
    BuildDepends := ["libfoo-dev"], Homepage := "",
    Copyright := "License text A\n", debhelper_version := 9,
    changelogs := [], Distribution := "focal" }

/-- Package `pkg_b`, maintained by Bob, build-depending on `libbar-dev`. -/
def demoPkgB : Sub :=
  { Name := "pkg_b", DebianInc := "-0", format := "quilt",
    InstallationPrefix := "/opt",
    Maintainers := "Bob <bob@example.com>",
    BuildDepends := ["libbar-dev"], Homepage := "",
    Copyright := "License text B\n", debhelper_version := 9,
    changelogs := [], Distribution := "focal" }

/-- A package whose build-dependency list contains a duplicate (`a` twice). -/
def demoDedupPkg : Sub :=
  { Name := "pkg_x", DebianInc := "-0", format := "quilt",
    InstallationPrefix := "/opt",
    Maintainers := "Mia <mia@example.com>",
    BuildDepends := ["a", "b", "a", "c"], Homepage := "",
    Copyright := "", debhelper_version := 9,
    changelogs := [], Distribution := "focal" }

/-- Package `pkga`, build-depending on its sibling `pkgb`. -/
def demoMutualA : Sub :=
  { Name := "pkga", DebianInc := "-0", format := "quilt",
    InstallationPrefix := "/opt",
    Maintainers := "Mia <mia@example.com>",
    BuildDepends := ["pkgb"], Homepage := "",
    Copyright := "", debhelper_version := 9,
    changelogs := [], Distribution := "focal" }

/-- Package `pkgb`, build-depending on its sibling `pkga`. -/
def demoMutualB : Sub :=
  { Name := "pkgb", DebianInc := "-0", format := "quilt",
    InstallationPrefix := "/opt",
    Maintainers := "Mia <mia@example.com>",
    BuildDepends := ["pkga"], Homepage := "",
    Copyright := "", debhelper_version := 9,
    changelogs := [], Distribution := "focal" }

/-- A package with two maintainers, whose `Maintainers` value is the
comma-joined string produced at line 391. -/
def demoPkgM : Sub :=
  { Name := "pkg_m", DebianInc := "-0", format := "quilt",
    InstallationPrefix := "/opt",
    Maintainers := "Alice <alice@example.com>, Bob <bob@example.com>",
    BuildDepends := [], Homepage := "",
    Copyright := "", debhelper_version := 9,
    changelogs := [], Distribution := "focal" }

/-- A package maintained by `"Ann"` (used as a small witness input). -/
def demoPkgW : Sub :=
  { Name := "pkg_w", DebianInc := "-0", format := "quilt",
    InstallationPrefix := "/opt",
    Maintainers := "Ann",
    BuildDepends := [], Homepage := "",
    Copyright := "", debhelper_version := 9,
    changelogs := [], Distribution := "focal" }

/-! ## Command entry point (source: repo_debian_generator_cmd.py)

`build_debian_pkg` (lines 126-180) calls `find_packages(package_path)` and
then checks the number of packages found (lines 136-141).  Only the
zero-package case calls `sys.exit` with a diagnostic; the check for more
than one package is commented out in the source (lines 139-141), so the
command proceeds into multi-package generation in that case. -/

/-- Embeds the package-discovery gate of `build_debian_pkg`
(repo_debian_generator_cmd.py, lines 136-141): given the number of packages
`find_packages` returned at `package_path`, either abort with the
diagnostic message or proceed. -/
def build_debian_pkg_package_gate (package_path : String) (numPackages : Nat) :
    Except String Unit :=
  if numPackages = 0 then
    Except.error ("No packages found in path: '" ++ package_path ++ "'")
  else Except.ok ()

/-! ## Theorems -/

example : sanitize_package_name "foo_bar_baz" = "foo-bar-baz" := by decide

example : debianize_string "a.\nb" = "a. b" := by decide

example : format_description "a.\nb" = "a.\n b" := by decide

example : format_description "Foo. Bar baz." = "Foo.\n Bar baz." := by decide

example : debianize_string "x <b>y</b>  z" = "x y z" := by decide

example : format_description "Hello world" = "Hello world" := by decide

/-! ## Lemmas about the string helpers -/

theorem sanitize_data (x : String) :
    (sanitize_package_name x).data = x.data.map sanChar := rfl

theorem sanChar_idem (c : Char) : sanChar (sanChar c) = sanChar c := by
  by_cases hc : c = '_'
  · subst hc; decide
  · simp [sanChar, hc]

theorem sanChar_ne_underscore (c : Char) : sanChar c ≠ '_' := by
  by_cases hc : c = '_'
  · subst hc; decide
  · simp [sanChar, hc]

theorem map_sanChar_idem (l : List Char) :
    (l.map sanChar).map sanChar = l.map sanChar := by
  induction l with
  | nil => rfl
  | cons c cs ih => simp [sanChar_idem, ih]

theorem count_underscore_map_sanChar (l : List Char) :
    (l.map sanChar).count '_' = 0 := by
  induction l with
  | nil => rfl
  | cons c cs ih =>
    simp [List.count_cons, ih, sanChar_ne_underscore c]

theorem count_dash_map_sanChar (l : List Char) :
    (l.map sanChar).count '-' = l.count '-' + l.count '_' := by
  induction l with
  | nil => rfl
  | cons c cs ih =>
    by_cases hc : c = '_'
    · subst hc
      have : sanChar '_' = '-' := by decide
      simp [List.count_cons, ih, this]
      omega
    · have : sanChar c = c := by simp [sanChar, hc]
      by_cases hd : c = '-'
      · subst hd
        simp [List.count_cons, ih, this]
        omega
      · simp [List.count_cons, ih, this, hc, hd]

/-- C9: sanitizing a package name is idempotent, eliminates every underscore
separator, converts each underscore into exactly one hyphen (so the
replacement is applied consistently to every separator character), and
distributes over concatenation. -/
theorem C9_sanitize_package_name_idempotent (x y : String) :
    sanitize_package_name (sanitize_package_name x) = sanitize_package_name x
    ∧ (sanitize_package_name x).data.count '_' = 0
    ∧ (sanitize_package_name x).data.count '-' = x.data.count '-' + x.data.count '_'
    ∧ sanitize_package_name (x ++ y) = sanitize_package_name x ++ sanitize_package_name y := by
  refine ⟨?_, ?_, ?_, ?_⟩
  · show String.mk ((x.data.map sanChar).map sanChar) = String.mk (x.data.map sanChar)
    rw [map_sanChar_idem]
  · exact count_underscore_map_sanChar x.data
  · exact count_dash_map_sanChar x.data
  · cases x with
    | mk lx =>
      cases y with
      | mk ly =>
        show String.mk ((lx ++ ly).map sanChar) = String.mk (lx.map sanChar ++ ly.map sanChar)
        rw [List.map_append]

theorem hasDotSpace_eq_isSome (l : List Char) :
    hasDotSpace l = (splitDotSpace l).isSome := by
  induction l with
  | nil => rfl
  | cons c cs ih =>
    cases cs with
    | nil => rfl
    | cons c2 cs2 =>
      by_cases hc : (c == '.' && c2 == ' ') = true
      · simp [hasDotSpace, splitDotSpace, hc]
      · rw [Bool.not_eq_true] at hc
        rw [show hasDotSpace (c :: c2 :: cs2) = hasDotSpace (c2 :: cs2) from by
              simp [hasDotSpace, hc]]
        rw [ih]
        rw [show splitDotSpace (c :: c2 :: cs2) =
              match splitDotSpace (c2 :: cs2) with
              | some (p, q) => some (c :: p, q)
              | none => none from by
              simp [splitDotSpace, hc]]
        cases splitDotSpace (c2 :: cs2) with
        | none => rfl
        | some pq => cases pq; rfl

theorem splitDotSpace_eq_none_of_not_hasDotSpace (l : List Char)
    (h : hasDotSpace l = false) : splitDotSpace l = none := by
  rw [hasDotSpace_eq_isSome] at h
  exact Option.not_isSome_iff_eq_none.mp (by simp [h])

theorem newline_not_mem_collapse (l : List Char) :
    '\n' ∉ collapseWhitespace l ∧ '\n' ∉ skipFollowingSpaces l := by
  induction l with
  | nil => exact ⟨List.not_mem_nil _, List.not_mem_nil _⟩
  | cons c cs ih =>
    constructor
    · rw [collapseWhitespace]
      by_cases hc : isPySpace c
      · simp only [hc, if_pos]
        intro hmem
        rcases List.mem_cons.mp hmem with h1 | h1
        · exact absurd h1 (by decide)
        · exact ih.2 h1
      · simp only [hc, if_neg, Bool.false_eq_true, not_false_eq_true]
        intro hmem
        rcases List.mem_cons.mp hmem with h1 | h1
        · subst h1; exact hc (by decide)
        · exact ih.1 h1
    · rw [skipFollowingSpaces]
      by_cases hc : isPySpace c
      · simp only [hc, if_pos]
        exact ih.2
      · simp only [hc, if_neg, Bool.false_eq_true, not_false_eq_true]
        intro hmem
        rcases List.mem_cons.mp hmem with h1 | h1
        · subst h1; exact hc (by decide)
        · exact ih.1 h1

theorem mem_of_mem_pyStrip {c : Char} {l : List Char} (h : c ∈ pyStrip l) : c ∈ l := by
  unfold pyStrip at h
  rw [List.mem_reverse] at h
  have h2 := (List.dropWhile_sublist isPySpace (l := (l.dropWhile isPySpace).reverse)).mem h
  rw [List.mem_reverse] at h2
  exact (List.dropWhile_sublist isPySpace (l := l)).mem h2

theorem newline_not_mem_debianize (s : String) :
    '\n' ∉ (debianize_string s).data := by
  intro h
  exact (newline_not_mem_collapse (stripMarkup s.data)).1 (mem_of_mem_pyStrip h)

/-- C8 counterexample: the input `"a.\nb"` contains no literal `". "`
sentence break, yet `format_description` does not return the
markup-stripped, whitespace-collapsed text unchanged: collapsing the
newline to a space creates a `". "` boundary and the text is split into a
two-line synopsis and paragraph. -/
theorem C8_format_description_counterexample :
    hasDotSpace ("a.\nb").data = false
    ∧ format_description "a.\nb" ≠ debianize_string "a.\nb"
    ∧ format_description "a.\nb" = "a.\n b"
    ∧ debianize_string "a.\nb" = "a. b" := by
  refine ⟨by decide, by decide, by decide, by decide⟩

/-- C8 (amended): for every input whose markup-stripped,
whitespace-collapsed form contains no `". "` sentence break, the formatter
returns that form unchanged, and the result is a single line (it contains
no newline); for the input `"Foo. Bar baz."` the result is the two-line
string whose first line is the synopsis `"Foo."` and whose second line is
the remaining text indented by one space. -/
theorem C8_format_description_amended :
    (∀ s : String, hasDotSpace (debianize_string s).data = false →
      format_description s = debianize_string s
      ∧ '\n' ∉ (format_description s).data)
    ∧ format_description "Foo. Bar baz." = "Foo.\n Bar baz." := by
  constructor
  · intro s h
    have hs := splitDotSpace_eq_none_of_not_hasDotSpace _ h
    have heq : format_description s = debianize_string s := by
      simp only [format_description]
      rw [hs]
    refine ⟨heq, ?_⟩
    rw [heq]
    exact newline_not_mem_debianize s
  · decide

/-- Witness for the amended C8 theorem at the concrete input `"Hello world"`. -/
theorem C8_format_description_amended_witness :
    format_description "Hello world" = debianize_string "Hello world" :=
  (C8_format_description_amended.1 "Hello world" (by decide)).1

theorem lookup_map_self {β : Type} (f : String → β) :
    ∀ (names : List String) (key : String), key ∈ names →
      List.lookup key (names.map (fun k => (k, f k))) = some (f key) := by
  intro names
  induction names with
  | nil => intro key h; exact absurd h (List.not_mem_nil key)
  | cons n ns ih =>
    intro key h
    by_cases hk : key = n
    · subst hk
      simp [List.lookup]
    · have : key ∈ ns := by
        rcases List.mem_cons.mp h with h1 | h1
        · exact absurd h1 hk
        · exact h1
      have hne : (key == n) = false := by simp [hk]
      simp [List.lookup, hne, ih key this]

/-- C1 counterexample: a key `"foo_bar"` is in the peer-names set passed to
resolution, the external service has a mapping for it, and resolution
returns the service's answer `["libfoo-dev"]` — not the sanitized peer name
`["foo-bar"]` — so the external lookup is not bypassed for peer keys. -/
theorem C1_peer_bypass_counterexample :
    List.lookup "foo_bar"
      (resolve_dependencies
        (fun key _ _ _ _ => if key == "foo_bar" then some ["libfoo-dev"] else none)
        [{ name := "foo_bar" }] "ubuntu" "focal" none (some ["foo_bar"]) none)
      = some ["libfoo-dev"]
    ∧ (["libfoo-dev"] : List String) ≠ [sanitize_package_name "foo_bar"] := by
  exact ⟨by decide, by decide⟩

/-- Helper: what `resolve_dependencies` records for any key in its input. -/
theorem resolve_dependencies_lookup
    (svc : String → String → String → String → List String → Option (List String))
    (keys : List Dependency) (os_name os_version : String)
    (ros_distro : Option String) (peer_packages : Option (List String))
    (fallback_resolver : Option (String → List String → List String))
    (key : String) (hkey : key ∈ keys.map Dependency.name) :
    List.lookup key
      (resolve_dependencies svc keys os_name os_version ros_distro peer_packages fallback_resolver)
      = some ((svc key os_name os_version (ros_distro.getD "melodic")
                (keys.map Dependency.name)).getD [key]) := by
  have h := lookup_map_self
    (fun k =>
      match svc k os_name os_version (ros_distro.getD "melodic") (keys.map Dependency.name) with
      | some resolved_key => resolved_key
      | none => [k])
    (keys.map Dependency.name) key hkey
  rw [show resolve_dependencies svc keys os_name os_version ros_distro peer_packages fallback_resolver
        = (keys.map Dependency.name).map
            (fun k => (k,
              match svc k os_name os_version (ros_distro.getD "melodic") (keys.map Dependency.name) with
              | some resolved_key => resolved_key
              | none => [k])) from rfl]
  rw [h]
  cases hsvc : svc key os_name os_version (ros_distro.getD "melodic") (keys.map Dependency.name) with
  | none => simp [hsvc]
  | some r => simp [hsvc]

/-- C1 (amended): `resolve_dependencies` consults the external resolution
service for every key, passing the key list itself as the peer set (the
caller's `peer_packages` argument is ignored); each key resolves to
whatever the service returns, falling back to the literal, unsanitized key
name when the service reports no resolution.  The sanitized-peer bypass
exists only in `missing_dep_resolver`, which `resolve_dependencies` never
invokes. -/
theorem C1_peer_bypass_amended
    (svc : String → String → String → String → List String → Option (List String))
    (keys : List Dependency) (os_name os_version : String)
    (ros_distro : Option String) (peer_packages : Option (List String))
    (fallback_resolver : Option (String → List String → List String))
    (key : String) (hkey : key ∈ keys.map Dependency.name) :
    List.lookup key
      (resolve_dependencies svc keys os_name os_version ros_distro peer_packages fallback_resolver)
      = some ((svc key os_name os_version (ros_distro.getD "melodic")
                (keys.map Dependency.name)).getD [key]) :=
  resolve_dependencies_lookup svc keys os_name os_version ros_distro peer_packages
    fallback_resolver key hkey

/-- Witness for the amended C1 theorem: with a service that maps
`"foo_bar"` to `["libfoo-dev"]`, resolution returns exactly that answer. -/
theorem C1_peer_bypass_amended_witness :
    List.lookup "foo_bar"
      (resolve_dependencies
        (fun key _ _ _ _ => if key == "foo_bar" then some ["libfoo-dev"] else none)
        [{ name := "foo_bar" }] "ubuntu" "focal" none (some ["foo_bar"]) none)
      = some ["libfoo-dev"] := by
  have h := C1_peer_bypass_amended
    (fun key _ _ _ _ => if key == "foo_bar" then some ["libfoo-dev"] else none)
    [{ name := "foo_bar" }] "ubuntu" "focal" none (some ["foo_bar"]) none
    "foo_bar" (by decide)
  simpa using h

/-- C6: for every dependency key for which the external service reports
not-found and whose name is not in the caller's peer names, resolution
returns exactly the single-element list containing the literal key name;
and resolution is total — every key in the input receives some resolved
list (no per-key failure). -/
theorem C6_fallback_literal_key
    (svc : String → String → String → String → List String → Option (List String))
    (keys : List Dependency) (os_name os_version : String)
    (ros_distro : Option String) (peer_packages : Option (List String))
    (fallback_resolver : Option (String → List String → List String)) :
    (∀ key, key ∈ keys.map Dependency.name →
      key ∉ (peer_packages.getD []) →
      svc key os_name os_version (ros_distro.getD "melodic") (keys.map Dependency.name) = none →
      List.lookup key
        (resolve_dependencies svc keys os_name os_version ros_distro peer_packages fallback_resolver)
        = some [key])
    ∧ (∀ key, key ∈ keys.map Dependency.name →
      ∃ v, List.lookup key
        (resolve_dependencies svc keys os_name os_version ros_distro peer_packages fallback_resolver)
        = some v) := by
  constructor
  · intro key hkey _ hnone
    rw [resolve_dependencies_lookup svc keys os_name os_version ros_distro peer_packages
          fallback_resolver key hkey]
    rw [hnone]
    rfl
  · intro key hkey
    exact ⟨_, resolve_dependencies_lookup svc keys os_name os_version ros_distro peer_packages
            fallback_resolver key hkey⟩

/-- Witness for C6: a service that resolves nothing makes the key fall back
to itself. -/
theorem C6_fallback_literal_key_witness :
    List.lookup "libfoo"
      (resolve_dependencies (fun _ _ _ _ _ => none)
        [{ name := "libfoo" }] "ubuntu" "focal" none (some []) none)
      = some ["libfoo"] :=
  (C6_fallback_literal_key (fun _ _ _ _ _ => none)
      [{ name := "libfoo" }] "ubuntu" "focal" none (some []) none).1
    "libfoo" (by decide) (by decide) rfl

example : verLt (parse_version "1.2.0") (parse_version "1.3.0") = true := by decide

example : verLt (parse_version "1.3.0") (parse_version "1.2.0") = false := by decide

example : verLt (parse_version "1.2") (parse_version "1.2.0") = false := by decide

theorem assemble_changelogs_ne_nil (version now relName relEmail : String)
    (logs : List ChangelogEntry) :
    assemble_changelogs version now relName relEmail logs ≠ [] := by
  unfold assemble_changelogs
  by_cases h : version ∈ logs.map ChangelogEntry.version
  · rw [if_pos h]
    intro hnil
    subst hnil
    simp at h
  · rw [if_neg h]
    exact List.cons_ne_nil _ _

/-- C4: after the changelog sequence is assembled, if the first entry's
version differs from the current version or some entry's version exceeds
the current version under version comparison, the validation flag is
raised, and with the interactive gate left at its default (abort) the run
does not proceed. -/
theorem C4_changelog_validation (version now relName relEmail : String)
    (logs : List ChangelogEntry)
    (h : (assemble_changelogs version now relName relEmail logs).head?.map ChangelogEntry.version
           ≠ some version
      ∨ ∃ e ∈ assemble_changelogs version now relName relEmail logs,
          verLt (parse_version version) (parse_version e.version) = true) :
    bad_changelog version (assemble_changelogs version now relName relEmail logs) = true
    ∧ changelog_check_passes version (assemble_changelogs version now relName relEmail logs)
        false = false := by
  have hbad :
      bad_changelog version (assemble_changelogs version now relName relEmail logs) = true := by
    rcases h with h1 | h2
    · cases ha : assemble_changelogs version now relName relEmail logs with
      | nil => exact absurd ha (assemble_changelogs_ne_nil version now relName relEmail logs)
      | cons e es =>
        rw [ha] at h1
        simp only [List.head?, Option.map_some] at h1
        have hne : version ≠ e.version := fun hv => h1 (by rw [hv]; rfl)
        unfold bad_changelog
        simp [bne_iff_ne, hne]
    · unfold bad_changelog
      have : (assemble_changelogs version now relName relEmail logs).any
          (fun e => verLt (parse_version version) (parse_version e.version)) = true := by
        rw [List.any_eq_true]
        rcases h2 with ⟨e, he, hv⟩
        exact ⟨e, he, hv⟩
      simp [this]
  refine ⟨hbad, ?_⟩
  unfold changelog_check_passes
  rw [hbad]
  rfl

/-- Witness for C4 at the spec's example: history `[("1.3.0", ...)]` with
current version `"1.2.0"` is flagged and the default gate aborts. -/
theorem C4_changelog_validation_witness :
    bad_changelog "1.2.0"
      (assemble_changelogs "1.2.0" "Thu, 01 Jan 2026 00:00:00 -0000" "Alice" "alice@example.com"
        [{ version := "1.3.0", date := "Wed, 31 Dec 2025 00:00:00 -0000",
           changes := "  * fix", releaser := "Alice", email := "alice@example.com" }]) = true
    ∧ changelog_check_passes "1.2.0"
      (assemble_changelogs "1.2.0" "Thu, 01 Jan 2026 00:00:00 -0000" "Alice" "alice@example.com"
        [{ version := "1.3.0", date := "Wed, 31 Dec 2025 00:00:00 -0000",
           changes := "  * fix", releaser := "Alice", email := "alice@example.com" }])
      false = false :=
  C4_changelog_validation "1.2.0" "Thu, 01 Jan 2026 00:00:00 -0000" "Alice" "alice@example.com"
    [{ version := "1.3.0", date := "Wed, 31 Dec 2025 00:00:00 -0000",
       changes := "  * fix", releaser := "Alice", email := "alice@example.com" }]
    (Or.inr (by decide))

/-- C5: when the current version is absent from the parsed history the
assembled sequence has the synthesized entry at its head — version equal to
the current version, the fixed autogenerated marker text, and the primary
maintainer as releaser — and with no history at all the sequence is exactly
that one synthesized entry. -/
theorem C5_synthesized_entry (version now relName relEmail : String) :
    (∀ logs : List ChangelogEntry, version ∉ logs.map ChangelogEntry.version →
      assemble_changelogs version now relName relEmail logs =
        { version := version, date := now, changes := autogenChangelogText,
          releaser := relName, email := relEmail } :: logs)
    ∧ assemble_changelogs version now relName relEmail [] =
        [{ version := version, date := now, changes := autogenChangelogText,
           releaser := relName, email := relEmail }] := by
  constructor
  · intro logs h
    unfold assemble_changelogs
    rw [if_neg h]
  · unfold assemble_changelogs
    rw [if_neg (by simp)]

/-- Witness for C5 at the spec's example: no history and current version
`"1.2.0"` yield the single synthesized entry. -/
theorem C5_synthesized_entry_witness :
    assemble_changelogs "1.2.0" "Thu, 01 Jan 2026 00:00:00 -0000" "Alice" "alice@example.com" [] =
      [{ version := "1.2.0", date := "Thu, 01 Jan 2026 00:00:00 -0000",
         changes := autogenChangelogText,
         releaser := "Alice", email := "alice@example.com" }] :=
  (C5_synthesized_entry "1.2.0" "Thu, 01 Jan 2026 00:00:00 -0000" "Alice"
      "alice@example.com").1 [] (by decide)

/-! ### Lemmas about `pyDictFromKeys` and `allSubsList` -/

theorem pyDictFromKeysAux_sublist (l : List String) :
    ∀ seen, List.Sublist (pyDictFromKeysAux seen l) l := by
  induction l with
  | nil => intro seen; exact List.Sublist.refl []
  | cons y ys ih =>
    intro seen
    unfold pyDictFromKeysAux
    by_cases hy : y ∈ seen
    · rw [if_pos hy]
      exact (ih seen).cons y
    · rw [if_neg hy]
      exact (ih (y :: seen)).cons₂ y

theorem pyDictFromKeysAux_mem (l : List String) :
    ∀ seen x, x ∈ l → x ∉ seen → x ∈ pyDictFromKeysAux seen l := by
  induction l with
  | nil => intro seen x hx _; exact absurd hx (List.not_mem_nil x)
  | cons y ys ih =>
    intro seen x hx hseen
    unfold pyDictFromKeysAux
    by_cases hy : y ∈ seen
    · rw [if_pos hy]
      rcases List.mem_cons.mp hx with h1 | h1
      · subst h1; exact absurd hy hseen
      · exact ih seen x h1 hseen
    · rw [if_neg hy]
      rcases List.mem_cons.mp hx with h1 | h1
      · subst h1; exact List.mem_cons_self x _
      · by_cases hxy : x = y
        · subst hxy; exact List.mem_cons_self x _
        · exact List.mem_cons_of_mem y
            (ih (y :: seen) x h1 (by
              intro hc
              rcases List.mem_cons.mp hc with h2 | h2
              · exact hxy h2
              · exact hseen h2))

theorem pyDictFromKeysAux_not_mem_seen (l : List String) :
    ∀ seen x, x ∈ pyDictFromKeysAux seen l → x ∉ seen := by
  induction l with
  | nil => intro seen x hx; exact absurd hx (List.not_mem_nil x)
  | cons y ys ih =>
    intro seen x hx
    unfold pyDictFromKeysAux at hx
    by_cases hy : y ∈ seen
    · rw [if_pos hy] at hx
      exact ih seen x hx
    · rw [if_neg hy] at hx
      rcases List.mem_cons.mp hx with h1 | h1
      · subst h1; exact hy
      · intro hc
        exact ih (y :: seen) x h1 (List.mem_cons_of_mem y hc)

theorem pyDictFromKeysAux_nodup (l : List String) :
    ∀ seen, (pyDictFromKeysAux seen l).Nodup := by
  induction l with
  | nil => intro seen; exact List.nodup_nil
  | cons y ys ih =>
    intro seen
    unfold pyDictFromKeysAux
    by_cases hy : y ∈ seen
    · rw [if_pos hy]
      exact ih seen
    · rw [if_neg hy]
      refine List.nodup_cons.mpr ⟨?_, ih (y :: seen)⟩
      intro hc
      exact pyDictFromKeysAux_not_mem_seen ys (y :: seen) y hc (List.mem_cons_self y seen)

theorem pyDictFromKeys_sublist (l : List String) : List.Sublist (pyDictFromKeys l) l :=
  pyDictFromKeysAux_sublist l []

theorem pyDictFromKeys_nodup (l : List String) : (pyDictFromKeys l).Nodup :=
  pyDictFromKeysAux_nodup l []

theorem pyDictFromKeys_mem_iff (l : List String) (x : String) :
    x ∈ pyDictFromKeys l ↔ x ∈ l := by
  constructor
  · intro h; exact (pyDictFromKeys_sublist l).subset h
  · intro h; exact pyDictFromKeysAux_mem l [] x h (List.not_mem_nil x)

theorem mem_map_name_upsert (acc : List Sub) (s : Sub) (x : String) :
    x ∈ (upsertByName acc s).map Sub.Name ↔ x ∈ acc.map Sub.Name ∨ x = s.Name := by
  unfold upsertByName
  by_cases hany : acc.any (fun t => t.Name == s.Name) = true
  · rw [if_pos hany]
    rw [List.map_map]
    constructor
    · intro h
      rcases List.mem_map.mp h with ⟨t, ht, hval⟩
      by_cases htn : t.Name = s.Name
      · right
        rw [← hval]
        simp [Function.comp, htn]
      · left
        rw [← hval]
        have : (t.Name == s.Name) = false := by simp [htn]
        simp [Function.comp, this]
        exact ⟨t, ht, rfl⟩
    · intro h
      rcases h with h1 | h1
      · rcases List.mem_map.mp h1 with ⟨t, ht, hval⟩
        refine List.mem_map.mpr ⟨t, ht, ?_⟩
        by_cases htn : t.Name = s.Name
        · simp [Function.comp, htn]
          rw [← htn, hval]
        · have : (t.Name == s.Name) = false := by simp [htn]
          simp [Function.comp, this]
          exact hval
      · rcases List.any_eq_true.mp hany with ⟨t0, ht0, hbeq⟩
        refine List.mem_map.mpr ⟨t0, ht0, ?_⟩
        simp only [Function.comp, hbeq, if_pos]
        exact h1.symm
  · rw [if_neg hany]
    rw [List.map_append]
    rw [List.mem_append]
    simp

theorem mem_map_name_foldl (subs : List Sub) :
    ∀ (acc : List Sub) (x : String),
      x ∈ ((subs.foldl upsertByName acc).map Sub.Name)
        ↔ x ∈ acc.map Sub.Name ∨ x ∈ subs.map Sub.Name := by
  induction subs with
  | nil => intro acc x; simp
  | cons s ss ih =>
    intro acc x
    rw [List.foldl_cons, ih (upsertByName acc s) x, mem_map_name_upsert]
    simp only [List.map_cons, List.mem_cons]
    tauto

theorem mem_map_name_allSubsList (subs : List Sub) (x : String) :
    x ∈ (allSubsList subs).map Sub.Name ↔ x ∈ subs.map Sub.Name := by
  unfold allSubsList
  rw [mem_map_name_foldl]
  simp

theorem foldl_append_bd (l : List Sub) :
    ∀ acc : List String,
      l.foldl (fun a s => a ++ s.BuildDepends) acc = acc ++ (l.map Sub.BuildDepends).flatten := by
  induction l with
  | nil => intro acc; simp
  | cons s ss ih =>
    intro acc
    rw [List.foldl_cons, ih]
    simp [List.append_assoc]

theorem merge_packages_eq (subs : List Sub) (s0 : Sub) (rest : List Sub) (c : Char)
    (cs : List Char) (h1 : allSubsList subs = s0 :: rest)
    (h2 : s0.Maintainers.data = c :: cs) :
    merge_packages subs = some (merge_header_core s0 rest c) := by
  unfold merge_packages
  rw [h1]
  dsimp only
  rw [h2]

theorem merge_packages_some (subs : List Sub) (hdr : Header)
    (hm : merge_packages subs = some hdr) :
    ∃ s0 rest c cs, allSubsList subs = s0 :: rest ∧ s0.Maintainers.data = c :: cs
      ∧ hdr = merge_header_core s0 rest c := by
  unfold merge_packages at hm
  cases h1 : allSubsList subs with
  | nil => rw [h1] at hm; simp at hm
  | cons s0 rest =>
    rw [h1] at hm
    dsimp only at hm
    cases h2 : s0.Maintainers.data with
    | nil => rw [h2] at hm; simp at hm
    | cons c cs =>
      rw [h2] at hm
      dsimp only at hm
      exact ⟨s0, rest, c, cs, rfl, h2, (Option.some.inj hm).symm⟩

theorem merge_header_core_BuildDepends (s0 : Sub) (rest : List Sub) (c : Char) :
    (merge_header_core s0 rest c).BuildDepends
      = pyDictFromKeys ((rest.foldl (fun acc s => acc ++ s.BuildDepends) s0.BuildDepends).filter
          (fun x => decide (x ∉ (s0 :: rest).map Sub.Name))) := rfl

/-- C2: evidence for the aggregation bug.  Aggregating the two packages
`demoPkgA` and `demoPkgB` extends the header's build-dependency list with
both packages' build dependencies, but the header's `Maintainers` and
`Copyright` fields keep only the first package's values: the `str.join`
calls on lines 488 and 490 return a fresh string that is immediately
discarded, so the second package's maintainer string and license text are
dropped instead of merged. -/
theorem C2_merge_packages_join_noop :
    (merge_packages [demoPkgA, demoPkgB]).map Header.Maintainers
      = some "Alice <alice@example.com>"
    ∧ (merge_packages [demoPkgA, demoPkgB]).map Header.Maintainers
      ≠ some "Alice <alice@example.com>, Bob <bob@example.com>"
    ∧ (merge_packages [demoPkgA, demoPkgB]).map Header.Copyright
      = some "License text A\n"
    ∧ (merge_packages [demoPkgA, demoPkgB]).map Header.Copyright
      ≠ some ("License text A\n" ++ "License text B\n")
    ∧ (merge_packages [demoPkgA, demoPkgB]).map Header.BuildDepends
      = some ["libfoo-dev", "libbar-dev"] := by
  refine ⟨by decide, by decide, by decide, by decide, by decide⟩

/-- C3: the aggregated header's build-dependency list contains no entry
equal to any package name present in the release, contains no duplicates,
and is a sublist — hence in first-seen order — of the concatenation of the
per-package build-dependency lists; concretely, the duplicate input
`["a", "b", "a", "c"]` aggregates to `["a", "b", "c"]` and two packages
that each declare the other as a build dependency aggregate to an empty
build-dependency list. -/
theorem C3_header_build_depends_no_self_no_dup :
    (∀ (subs : List Sub) (hdr : Header), merge_packages subs = some hdr →
      (∀ x ∈ hdr.BuildDepends, x ∉ subs.map Sub.Name)
      ∧ hdr.BuildDepends.Nodup
      ∧ List.Sublist hdr.BuildDepends (((allSubsList subs).map Sub.BuildDepends).flatten))
    ∧ (merge_packages [demoDedupPkg]).map Header.BuildDepends = some ["a", "b", "c"]
    ∧ (merge_packages [demoMutualA, demoMutualB]).map Header.BuildDepends = some [] := by
  refine ⟨?_, by decide, by decide⟩
  intro subs hdr hm
  obtain ⟨s0, rest, c, cs, h1, h2, rfl⟩ := merge_packages_some subs hdr hm
  rw [merge_header_core_BuildDepends]
  refine ⟨?_, pyDictFromKeys_nodup _, ?_⟩
  · intro x hx
    have hx1 : x ∈ (rest.foldl (fun acc s => acc ++ s.BuildDepends) s0.BuildDepends).filter
        (fun x => decide (x ∉ (s0 :: rest).map Sub.Name)) :=
      (pyDictFromKeys_mem_iff _ x).mp hx
    have hx2 := (List.mem_filter.mp hx1).2
    have hx3 : x ∉ (s0 :: rest).map Sub.Name := of_decide_eq_true hx2
    rw [← h1] at hx3
    intro hc
    exact hx3 ((mem_map_name_allSubsList subs x).mpr hc)
  · have hsub1 := pyDictFromKeys_sublist
      ((rest.foldl (fun acc s => acc ++ s.BuildDepends) s0.BuildDepends).filter
        (fun x => decide (x ∉ (s0 :: rest).map Sub.Name)))
    have hsub2 := List.filter_sublist
      (l := rest.foldl (fun acc s => acc ++ s.BuildDepends) s0.BuildDepends)
      (p := fun x => decide (x ∉ (s0 :: rest).map Sub.Name))
    have hbd : List.foldl (fun acc s => acc ++ s.BuildDepends) s0.BuildDepends rest
        = ((s0 :: rest).map Sub.BuildDepends).flatten := by
      rw [foldl_append_bd]
      simp
    rw [h1, ← hbd]
    exact hsub1.trans hsub2

/-- Witness for the universal part of the C3 theorem at the concrete input
`[demoDedupPkg]`. -/
theorem C3_header_build_depends_no_self_no_dup_witness :
    (merge_header_core demoDedupPkg [] 'M').BuildDepends.Nodup :=
  (C3_header_build_depends_no_self_no_dup.1 [demoDedupPkg]
      (merge_header_core demoDedupPkg [] 'M') rfl).2.1

/-- C10: the header's singular `Maintainer` field is assigned
`sub['Maintainers'][0]` (line 479), i.e. the first character of the first
package's comma-joined maintainers string — not the first maintainer
entry; for a first package with maintainers string
`"Alice <alice@example.com>, Bob <bob@example.com>"` the header's
`Maintainer` is the one-character string `"A"`. -/
theorem C10_header_maintainer_is_first_char :
    (∀ (subs : List Sub) (s0 : Sub) (rest : List Sub) (hdr : Header) (c : Char)
        (cs : List Char),
      allSubsList subs = s0 :: rest →
      s0.Maintainers.data = c :: cs →
      merge_packages subs = some hdr →
      hdr.Maintainer = String.mk [c])
    ∧ (merge_packages [demoPkgM]).map Header.Maintainer = some "A"
    ∧ (some "A" : Option String) ≠ some "Alice <alice@example.com>" := by
  refine ⟨?_, by decide, by decide⟩
  intro subs s0 rest hdr c cs h1 h2 hm
  rw [merge_packages_eq subs s0 rest c cs h1 h2] at hm
  rw [← Option.some.inj hm]
  rfl

/-- Witness for the universal part of the C10 theorem at the concrete input
`[demoPkgW]` whose maintainers string is `"Ann"`. -/
theorem C10_header_maintainer_is_first_char_witness :
    (merge_header_core demoPkgW [] 'A').Maintainer = String.mk ['A'] :=
  C10_header_maintainer_is_first_char.1 [demoPkgW] demoPkgW []
    (merge_header_core demoPkgW [] 'A') 'A' ['n', 'n'] rfl rfl rfl

/-- C7 counterexample: with two packages found at the package path the
command's gate proceeds with generation instead of terminating with a
diagnostic — the multiple-package check is commented out in the source. -/
theorem C7_multiple_packages_counterexample :
    build_debian_pkg_package_gate "/work" 2 = Except.ok () := rfl

/-- C7 (amended): the command terminates with a diagnostic only when zero
packages are found at the package path; when one or more packages are
found — in particular more than one — it proceeds into multi-package
generation. -/
theorem C7_multiple_packages_amended (package_path : String) :
    build_debian_pkg_package_gate package_path 0
      = Except.error ("No packages found in path: '" ++ package_path ++ "'")
    ∧ (∀ n : Nat, n ≠ 0 → build_debian_pkg_package_gate package_path n = Except.ok ()) := by
  constructor
  · rfl
  · intro n hn
    unfold build_debian_pkg_package_gate
    rw [if_neg hn]

/-- Witness for the amended C7 theorem at five packages. -/
theorem C7_multiple_packages_amended_witness :
    build_debian_pkg_package_gate "/work" 5 = Except.ok () :=
  (C7_multiple_packages_amended "/work").2 5 (by decide)

end RepoDebianGenerator

